import Mathlib

/-!
Verification of the `ContinualModel` lifecycle controller from
`models/utils/continual_model.py` (mammoth continual-learning framework).

The Python class is shallowly embedded: Python exceptions become an error
datatype carried in `Except`, tensors become lists of `Int` rows along the
batch dimension, the wandb side effect of `autolog_wandb` is reified as an
`Option` holding the logged mapping, and the kornia transform derivation is
an `Except`-valued external input to the constructor.
-/

namespace Mammoth

/-- Python exceptions raised by `continual_model.py`, by class and message. -/
inductive MErr where
  | notImplementedError (msg : String)
  | valueError (msg : String)
  | assertionError (msg : String)
deriving DecidableEq, Repr

/-- `self.cpt = self.dataset.N_CLASSES_PER_TASK`: either an `int` scalar or a
per-task list of `int`s (the two cases `isinstance(self.cpt, int)`
distinguishes). -/
inductive Cpt where
  | int (n : Int)
  | list (l : List Int)
deriving DecidableEq, Repr

/-- The task-progress fields of `ContinualModel` touched by
`meta_begin_task`, plus the constants they are derived from. -/
structure TaskState where
  cpt : Cpt
  current_task : Nat
  N_CLASSES : Int
  n_classes_current_task : Int
  n_seen_classes : Int
  n_remaining_classes : Int
  n_past_classes : Int
deriving DecidableEq, Repr

/-- `ContinualModel.meta_begin_task` (lines 127-132).  Recomputes the four
task-progress fields from `self.cpt` and `self.current_task`; in the
per-task-list case `self.cpt[self.current_task]` raises `IndexError` when the
task index is out of range, embedded as `none`.  The trailing
`self.begin_task(dataset)` call is a no-op in the base class. -/
def meta_begin_task (st : TaskState) : Option TaskState :=
  match st.cpt with
  | .int c =>
      some { st with
        n_classes_current_task := c
        n_seen_classes := c * ((st.current_task : Int) + 1)
        n_remaining_classes := st.N_CLASSES - c * ((st.current_task : Int) + 1)
        n_past_classes := c * (st.current_task : Int) }
  | .list l =>
      if h : st.current_task < l.length then
        some { st with
          n_classes_current_task := l.get ⟨st.current_task, h⟩
          n_seen_classes := (l.take (st.current_task + 1)).sum
          n_remaining_classes := st.N_CLASSES - (l.take (st.current_task + 1)).sum
          n_past_classes := (l.take st.current_task).sum }
      else none

/-- A positional argument of `meta_observe(*args)`: either a torch tensor,
modelled by its list of rows along the batch dimension (`shape[0]` is the
list length, rows abstracted to `Int` identifiers), or a non-tensor object
(for which `isinstance(arg, torch.Tensor)` is false). -/
inductive MArg where
  | tensor (rows : List Int)
  | nonTensor
deriving DecidableEq, Repr

/-- Torch boolean-mask indexing `t[mask]`: keeps the rows of `t` at the
positions where `mask` is true, in order. -/
def boolIndex {α : Type} : List α → List Bool → List α
  | [], _ => []
  | _, [] => []
  | a :: as, b :: bs => if b then a :: boolIndex as bs else boolIndex as bs

/-- The body of the list comprehension on line 118:
`arg[labeled_mask] if isinstance(arg, torch.Tensor) and arg.shape[0] ==
args[0].shape[0] else arg`, with `mask` the labeled mask and `n0` the batch
size `args[0].shape[0]`. -/
def dropUnlabeledArg (mask : List Bool) (n0 : Nat) (a : MArg) : MArg :=
  match a with
  | MArg.tensor rows =>
      if rows.length = n0 then MArg.tensor (boolIndex rows mask) else a
  | MArg.nonTensor => a

/-- The unlabeled-data filtering step of `ContinualModel.meta_observe`
(lines 116-118).  When `'cssl'` is not among the compatibility tags it
computes `labeled_mask = args[1] != -1` and replaces every argument by
`dropUnlabeledArg`; when `'cssl'` is present the arguments pass through
unchanged.  `none` embeds the Python errors raised when `args` has fewer
than two entries or `args[0]`/`args[1]` are not tensors (attribute or
broadcast errors outside the behaviour the claims quantify over). -/
def metaObserveFilter (compat : List String) (args : List MArg) :
    Option (List MArg) :=
  if "cssl" ∈ compat then some args
  else
    match args with
    | MArg.tensor inputs :: MArg.tensor labels :: _ =>
        some (args.map
          (dropUnlabeledArg (labels.map (fun l => decide (l ≠ -1)))
            inputs.length))
    | _ => none

/-- A Python value bound in a local variable of `observe`: a plain number, a
torch tensor (with its shape and, for zero-dimensional tensors, its single
element), or some other object. -/
inductive PyVal where
  | num (q : Rat)
  | tensor (dims : List Nat) (data : List Rat)
  | other
deriving DecidableEq, Repr

/-- Python `str.startswith(p)` as used on the local-variable names in
`autolog_wandb` (line 156), implemented on the character list so that
concrete instances evaluate in the kernel. -/
def pyStartsWith (s p : String) : Bool :=
  p.data.isPrefixOf s.data

/-- The conversion `v.item() if isinstance(v, torch.Tensor) and v.dim() == 0
else v` applied to each logged value in `autolog_wandb` (line 155). -/
def itemIfScalarTensor : PyVal → PyVal
  | .tensor [] (q :: _) => .num q
  | v => v

/-- `ContinualModel.autolog_wandb` (lines 149-158).  When `nowand` and
`debug_mode` are both off it logs to wandb the mapping of every local of
`observe` whose name starts with `_wandb_` or with `loss`, converting
zero-dimensional tensors to scalars, updated with `extra`; otherwise it does
nothing.  The side effect `wandb.log(tmp)` is reified as `some tmp`. -/
def autolog_wandb (nowand debug_mode : Bool)
    (locals : List (String × PyVal)) (extra : List (String × PyVal)) :
    Option (List (String × PyVal)) :=
  if !nowand && !debug_mode then
    some ((locals.filter
        (fun kv => pyStartsWith kv.1 "_wandb_" || pyStartsWith kv.1 "loss")).map
        (fun kv => (kv.1, itemIfScalarTensor kv.2)) ++ extra)
  else none

/-- `ContinualModel.meta_observe` (lines 115-125).  After the unlabeled-data
filtering step, when the wandb module is loaded and `nowand` is off the
underlying `observe` runs under `persistent_locals` and its captured locals
are passed to `autolog_wandb`; otherwise `observe` runs directly.  The
strategy's `observe` is abstracted as `observeFn`, returning its value and
its local bindings; the result pairs the returned value with the reified
wandb log (at most one `wandb.log` call per invocation). -/
def meta_observe (compat : List String) (wandbLoaded nowand debug_mode : Bool)
    (observeFn : List MArg → Rat × List (String × PyVal))
    (args : List MArg) : Option (Rat × Option (List (String × PyVal))) :=
  match metaObserveFilter compat args with
  | none => none
  | some args2 =>
      if wandbLoaded && !nowand then
        let r := observeFn args2
        some (r.1, autolog_wandb nowand debug_mode r.2 [])
      else
        some ((observeFn args2).1, none)

/-- `ContinualModel.observe` (lines 138-147): the abstract per-batch learning
step, which in the base class unconditionally raises `NotImplementedError`. -/
def observe (inputs labels not_aug_inputs : MArg) (epoch : Option Int) :
    Except MErr Rat :=
  .error (.notImplementedError "")

/-- The fields of the `args` Namespace that `continual_model.py` reads. -/
structure CfgArgs where
  optimizer : String
  lr : Rat
  optim_wd : Rat
  optim_mom : Rat
  label_perc : Rat
  nowand : Bool
  debug_mode : Bool
  buffer_size : Nat
deriving DecidableEq, Repr

/-- A stand-in for an opaque kornia transform object produced by
`to_kornia_transform`; only its identity matters to the claims. -/
structure KTransform where
  tag : Nat
deriving DecidableEq, Repr

/-- A torch optimizer handle as built by `get_optimizer`: the chosen
`torch.optim` class name and the hyperparameters bound to it. -/
structure Optimizer where
  optimClass : String
  lr : Rat
  weight_decay : Rat
  momentum : Rat
deriving DecidableEq, Repr

/-- An external replay buffer: `buffer.examples` is a tensor whose
`shape[0]` is the stored example count, modelled by a list of rows. -/
structure Buffer where
  examples : List Int
deriving DecidableEq, Repr

/-- Python `str.lower()` as used in `get_optimizer` (lines 78-80),
implemented on the character list so that concrete instances evaluate in
the kernel. -/
def pyLower (s : String) : String :=
  ⟨s.data.map Char.toLower⟩

/-- The dict comprehension
`{optim_name.lower(): optim_name for optim_name in dir(optim)}` of
`get_optimizer` (line 78): an association from lowercased name to original
name; as in a Python dict, a later entry overwrites an earlier one with the
same key, hence the lookup on the reversed list. -/
def supported_optims (dirOptim : List String) : List (String × String) :=
  dirOptim.map (fun n => (pyLower n, n))

/-- Lookup in the `supported_optims` dict: the last binding for a key wins. -/
def lookupOptim (dirOptim : List String) (key : String) : Option String :=
  (supported_optims dirOptim).reverse.lookup key

/-- `ContinualModel.get_optimizer` (lines 76-84).  `dirOptim` is `dir(optim)`,
the names available in `torch.optim`.  If the requested optimizer name
lowercased is a key of `supported_optims`, the matching constructor is
applied to the backbone parameters with `lr`, `weight_decay` and `momentum`
from the configuration; otherwise `ValueError('Unknown optimizer: ...')`. -/
def get_optimizer (dirOptim : List String) (a : CfgArgs) :
    Except MErr Optimizer :=
  match lookupOptim dirOptim (pyLower a.optimizer) with
  | some n => .ok ⟨n, a.lr, a.optim_wd, a.optim_mom⟩
  | none => .error (.valueError ("Unknown optimizer: " ++ a.optimizer))

/-- The inputs `ContinualModel.__init__` depends on: the concrete strategy's
class attributes `NAME` and `COMPATIBILITY`, whether a backbone was supplied
(`self.net is not None`), the names available in `torch.optim`, the outcome
of the kornia transform derivation (an external call that may raise any
exception), the configuration, and the dataset-derived constants. -/
structure InitInput where
  NAME : String
  COMPATIBILITY : List String
  hasNet : Bool
  dirOptim : List String
  korniaDerivation : Except Unit (KTransform × KTransform)
  args : CfgArgs
  N_CLASSES : Int
  N_TASKS : Int
  cpt : Cpt
deriving Repr

/-- The state of a constructed `ContinualModel` relevant to the claims:
the derived transform pair, the optimizer handle, the attached buffer, the
warnings printed during construction, and the configuration kept on `self`. -/
structure MState where
  NAME : String
  COMPATIBILITY : List String
  args : CfgArgs
  weak_transform : Option KTransform
  normalization_transform : Option KTransform
  opt : Option Optimizer
  buffer : Option Buffer
  warnings : List String
  current_task : Nat
deriving DecidableEq, Repr

/-- `ContinualModel.__init__` (lines 32-66), in source order: derive the
kornia transform pair inside `try/except BaseException` (on failure print a
warning and set both to `None`); if a backbone is present build the
optimizer via `get_optimizer` (propagating its `ValueError`), otherwise warn
and leave it `None`; raise `NotImplementedError` if `NAME` is the empty
string or `COMPATIBILITY` is the empty list; finally warn when
`label_perc != 1` without the `'cssl'` tag.  Warnings are accumulated as a
list of printed messages. -/
def initModel (inp : InitInput) : Except MErr MState := do
  let (wt, nt, w1) :=
    match inp.korniaDerivation with
    | .ok (w, n) => (some w, some n, ([] : List String))
    | .error _ =>
        (none, none, ["Warning: could not initialize kornia transforms."])
  let (opt, w2) ←
    if inp.hasNet then do
      let o ← get_optimizer inp.dirOptim inp.args
      pure (some o, ([] : List String))
    else
      pure (none,
        ["Warning: no default model for this dataset. You will have to specify the optimizer yourself."])
  if inp.NAME = "" ∨ inp.COMPATIBILITY = [] then
    throw (.notImplementedError
      "Please specify the name and the compatibility of the model.")
  let w3 :=
    if inp.args.label_perc ≠ 1 ∧ "cssl" ∉ inp.COMPATIBILITY then
      ["WARNING: label_perc is not explicitly supported by this model -> training may break"]
    else []
  pure { NAME := inp.NAME
         COMPATIBILITY := inp.COMPATIBILITY
         args := inp.args
         weak_transform := wt
         normalization_transform := nt
         opt := opt
         buffer := none
         warnings := w1 ++ w2 ++ w3
         current_task := 0 }

/-- `ContinualModel.load_buffer` (lines 68-74): assert that the buffer's
stored example count equals `args.buffer_size` (an `AssertionError` with the
formatted message otherwise), then set `self.buffer`. -/
def load_buffer (st : MState) (b : Buffer) : Except MErr MState :=
  if b.examples.length = st.args.buffer_size then
    .ok { st with buffer := some b }
  else
    .error (.assertionError
      ("Buffer size mismatch. Expected " ++ toString st.args.buffer_size ++
        " got " ++ toString b.examples.length))

/-! ## Theorems -/

/-- C1: after `meta_begin_task` succeeds on a state with current task index
`t`: if classes-per-task is a uniform scalar `C` then `n_seen_classes`
equals `C*(t+1)` and `n_past_classes` equals `C*t`; if it is a per-task
sequence then `n_seen_classes` is the prefix sum of the sequence up to and
including index `t` and `n_past_classes` the prefix sum excluding it. -/
theorem meta_begin_task_prefix_sums (st st' : TaskState)
    (h : meta_begin_task st = some st') :
    (∀ C : Int, st.cpt = .int C →
      st'.n_seen_classes = C * ((st.current_task : Int) + 1) ∧
      st'.n_past_classes = C * (st.current_task : Int)) ∧
    (∀ l : List Int, st.cpt = .list l →
      st'.n_seen_classes = (l.take (st.current_task + 1)).sum ∧
      st'.n_past_classes = (l.take st.current_task).sum) := by
  constructor
  · intro C hC
    simp only [meta_begin_task, hC, Option.some.injEq] at h
    subst h
    exact ⟨rfl, rfl⟩
  · intro l hl
    simp only [meta_begin_task, hl] at h
    by_cases ht : st.current_task < l.length
    · simp only [ht, dite_true, Option.some.injEq] at h
      subst h
      exact ⟨rfl, rfl⟩
    · simp [ht] at h

theorem meta_begin_task_prefix_sums_witness :
    meta_begin_task ⟨Cpt.int 3, 2, 30, 0, 0, 0, 0⟩ =
      some ⟨Cpt.int 3, 2, 30, 3, 9, 21, 6⟩ ∧
    (⟨Cpt.int 3, 2, 30, 3, 9, 21, 6⟩ : TaskState).n_seen_classes =
      3 * (((2 : Nat) : Int) + 1) ∧
    (⟨Cpt.int 3, 2, 30, 3, 9, 21, 6⟩ : TaskState).n_past_classes =
      3 * ((2 : Nat) : Int) :=
  ⟨by decide,
    (meta_begin_task_prefix_sums ⟨Cpt.int 3, 2, 30, 0, 0, 0, 0⟩
      ⟨Cpt.int 3, 2, 30, 3, 9, 21, 6⟩ (by decide)).1 3 rfl⟩

/-- C10: whenever `meta_begin_task` succeeds, for scalar and per-task-list
classes-per-task alike, the resulting state satisfies
`n_seen_classes + n_remaining_classes = N_CLASSES` and
`n_past_classes + n_classes_current_task = n_seen_classes`. -/
theorem meta_begin_task_invariants (st st' : TaskState)
    (h : meta_begin_task st = some st') :
    st'.n_seen_classes + st'.n_remaining_classes = st'.N_CLASSES ∧
    st'.n_past_classes + st'.n_classes_current_task = st'.n_seen_classes := by
  match hc : st.cpt with
  | .int c =>
      simp only [meta_begin_task, hc, Option.some.injEq] at h
      subst h
      constructor
      · simp
      · simp [mul_add]
  | .list l =>
      simp only [meta_begin_task, hc] at h
      by_cases ht : st.current_task < l.length
      · simp only [ht, dite_true, Option.some.injEq] at h
        subst h
        refine ⟨by simp, ?_⟩
        simp only
        rw [List.sum_take_succ l st.current_task ht]
        simp [List.get_eq_getElem]
      · simp [ht] at h

theorem meta_begin_task_invariants_witness :
    meta_begin_task ⟨Cpt.list [2, 3, 5], 1, 10, 0, 0, 0, 0⟩ =
      some ⟨Cpt.list [2, 3, 5], 1, 10, 3, 5, 5, 2⟩ ∧
    (⟨Cpt.list [2, 3, 5], 1, 10, 3, 5, 5, 2⟩ : TaskState).n_seen_classes +
      (⟨Cpt.list [2, 3, 5], 1, 10, 3, 5, 5, 2⟩ : TaskState).n_remaining_classes =
      (⟨Cpt.list [2, 3, 5], 1, 10, 3, 5, 5, 2⟩ : TaskState).N_CLASSES ∧
    (⟨Cpt.list [2, 3, 5], 1, 10, 3, 5, 5, 2⟩ : TaskState).n_past_classes +
      (⟨Cpt.list [2, 3, 5], 1, 10, 3, 5, 5, 2⟩ : TaskState).n_classes_current_task =
      (⟨Cpt.list [2, 3, 5], 1, 10, 3, 5, 5, 2⟩ : TaskState).n_seen_classes :=
  ⟨by decide,
    meta_begin_task_invariants ⟨Cpt.list [2, 3, 5], 1, 10, 0, 0, 0, 0⟩
      ⟨Cpt.list [2, 3, 5], 1, 10, 3, 5, 5, 2⟩ (by decide)⟩

/-- Boolean-mask indexing by the labeled mask keeps exactly the rows whose
aligned label differs from `-1`, in their original order. -/
theorem boolIndex_labeled_mask {α : Type} (rows : List α) (labels : List Int)
    (h : rows.length = labels.length) :
    boolIndex rows (labels.map (fun l => decide (l ≠ -1))) =
      ((rows.zip labels).filter (fun p => decide (p.2 ≠ -1))).map Prod.fst := by
  induction rows generalizing labels with
  | nil => simp [boolIndex]
  | cons a as ih =>
      match labels with
      | [] => simp at h
      | l :: ls =>
          simp only [List.length_cons, Nat.succ.injEq] at h
          have ih' := ih ls h
          simp only [List.map_cons, boolIndex, List.zip_cons_cons,
            List.filter_cons]
          by_cases hl : l = -1
          · simpa [hl] using ih'
          · simpa [hl] using ih'

/-- Filtering a list zipped with itself by a predicate on the second
component is filtering the list by the predicate. -/
theorem zip_self_filter_sentinel (labels : List Int) :
    ((labels.zip labels).filter (fun p => decide (p.2 ≠ -1))).map Prod.fst =
      labels.filter (fun l => decide (l ≠ -1)) := by
  induction labels with
  | nil => simp
  | cons l ls ih =>
      simp only [List.zip_cons_cons, List.filter_cons]
      by_cases hl : l = -1
      · simpa [hl] using ih
      · simpa [hl] using ih

/-- C2: when the compatibility tags lack `'cssl'` and some label equals the
sentinel `-1`, the filtering step of `meta_observe` succeeds and maps every
tensor argument sharing the batch dimension of the first argument to the
subsequence of its rows whose aligned label differs from `-1` (removing the
sentinel positions while preserving relative order and cross-argument
alignment); arguments not sharing that batch dimension, and non-tensor
arguments, are left untouched, and the filtered labels contain no `-1`. -/
theorem meta_observe_drops_unlabeled (compat : List String)
    (inputs labels : List Int) (rest : List MArg)
    (hc : "cssl" ∉ compat)
    (hlen : labels.length = inputs.length)
    (hsent : (-1 : Int) ∈ labels) :
    ∃ args2,
      metaObserveFilter compat
          (MArg.tensor inputs :: MArg.tensor labels :: rest) = some args2 ∧
      args2.length = rest.length + 2 ∧
      (∀ i rows,
        (MArg.tensor inputs :: MArg.tensor labels :: rest).get? i =
            some (MArg.tensor rows) →
        rows.length = inputs.length →
        args2.get? i = some (MArg.tensor
          (((rows.zip labels).filter
              (fun p => decide (p.2 ≠ -1))).map Prod.fst))) ∧
      (∀ i rows,
        (MArg.tensor inputs :: MArg.tensor labels :: rest).get? i =
            some (MArg.tensor rows) →
        rows.length ≠ inputs.length →
        args2.get? i = some (MArg.tensor rows)) ∧
      (∀ i,
        (MArg.tensor inputs :: MArg.tensor labels :: rest).get? i =
            some MArg.nonTensor →
        args2.get? i = some MArg.nonTensor) ∧
      args2.get? 1 =
        some (MArg.tensor (labels.filter (fun l => decide (l ≠ -1)))) := by
  have hform : metaObserveFilter compat
      (MArg.tensor inputs :: MArg.tensor labels :: rest) =
      some ((MArg.tensor inputs :: MArg.tensor labels :: rest).map
        (dropUnlabeledArg (labels.map (fun l => decide (l ≠ -1)))
          inputs.length)) := by
    simp [metaObserveFilter, hc]
  refine ⟨_, hform, ?_, ?_, ?_, ?_, ?_⟩
  · simp
  · intro i rows hi hrows
    simp only [List.get?_map, hi, Option.map_some']
    simp only [dropUnlabeledArg]
    rw [if_pos hrows,
      boolIndex_labeled_mask rows labels (hrows.trans hlen.symm)]
  · intro i rows hi hrows
    simp only [List.get?_map, hi, Option.map_some']
    simp [dropUnlabeledArg, hrows]
  · intro i hi
    simp only [List.get?_map, hi, Option.map_some']
    simp [dropUnlabeledArg]
  · simp only [List.get?_map, List.get?_cons_succ, List.get?_cons_zero,
      Option.map_some']
    simp only [dropUnlabeledArg]
    rw [if_pos hlen, boolIndex_labeled_mask labels labels rfl,
      zip_self_filter_sentinel]

theorem meta_observe_drops_unlabeled_witness :
    ("cssl" ∉ ([] : List String)) ∧
    ((-1 : Int) ∈ ([1, -1, 2] : List Int)) ∧
    ([1, -1, 2] : List Int).length = ([10, 20, 30] : List Int).length ∧
    metaObserveFilter []
      [MArg.tensor [10, 20, 30], MArg.tensor [1, -1, 2], MArg.nonTensor] =
      some [MArg.tensor [10, 30], MArg.tensor [1, 2], MArg.nonTensor] ∧
    (metaObserveFilter []
      [MArg.tensor [10, 20, 30], MArg.tensor [1, -1, 2],
        MArg.nonTensor]).isSome := by
  refine ⟨by decide, by decide, by decide, by decide, ?_⟩
  obtain ⟨args2, h1, -, -, -, -, -⟩ :=
    meta_observe_drops_unlabeled [] [10, 20, 30] [1, -1, 2] [MArg.nonTensor]
      (by decide) (by decide) (by decide)
  simp [h1]

/-- C3: when the compatibility tags contain `'cssl'`, the filtering step of
`meta_observe` returns the arguments unchanged whatever the labels contain,
and `meta_observe` invokes `observe` on exactly the original arguments,
returning its value. -/
theorem meta_observe_cssl_passthrough (compat : List String)
    (args : List MArg) (hc : "cssl" ∈ compat) :
    metaObserveFilter compat args = some args ∧
    ∀ (wandbLoaded nowand debug_mode : Bool)
      (observeFn : List MArg → Rat × List (String × PyVal)),
      ∃ log, meta_observe compat wandbLoaded nowand debug_mode observeFn args =
        some ((observeFn args).1, log) := by
  have h1 : metaObserveFilter compat args = some args := by
    simp [metaObserveFilter, hc]
  refine ⟨h1, ?_⟩
  intro w n d f
  by_cases hw : (w && !n) = true
  · exact ⟨autolog_wandb n d (f args).2 [], by simp [meta_observe, h1, hw]⟩
  · exact ⟨none, by simp [meta_observe, h1, hw]⟩

theorem meta_observe_cssl_passthrough_witness :
    ("cssl" ∈ (["cssl"] : List String)) ∧
    metaObserveFilter ["cssl"] [MArg.tensor [10], MArg.tensor [-1]] =
      some [MArg.tensor [10], MArg.tensor [-1]] :=
  ⟨by decide,
    (meta_observe_cssl_passthrough ["cssl"]
      [MArg.tensor [10], MArg.tensor [-1]] (by decide)).1⟩

/-- C7: with the wandb module loaded, `nowand` off and `debug_mode` off,
`meta_observe` makes exactly one logging call, whose mapping is the locals
of `observe` filtered to names starting with `_wandb_` or `loss` with
zero-dimensional tensors converted to scalars; in particular a local named
exactly `loss` bound to `2.5` (that is, `5 / 2`) yields a logged mapping
containing `("loss", 2.5)`.  With `nowand` on or `debug_mode` on, the
reified log is `none`: no logging call occurs, whatever locals `observe`
produces. -/
theorem meta_observe_autolog_loss (compat : List String)
    (args args2 : List MArg)
    (observeFn : List MArg → Rat × List (String × PyVal))
    (hf : metaObserveFilter compat args = some args2) :
    (∀ nowand debug_mode : Bool, nowand = false → debug_mode = false →
      meta_observe compat true nowand debug_mode observeFn args =
        some ((observeFn args2).1,
          some (((observeFn args2).2.filter
              (fun kv => pyStartsWith kv.1 "_wandb_" ||
                pyStartsWith kv.1 "loss")).map
              (fun kv => (kv.1, itemIfScalarTensor kv.2)) ++ [])) ∧
      (("loss", PyVal.num (5 / 2)) ∈ (observeFn args2).2 →
        ("loss", PyVal.num (5 / 2)) ∈
          ((observeFn args2).2.filter
              (fun kv => pyStartsWith kv.1 "_wandb_" ||
                pyStartsWith kv.1 "loss")).map
              (fun kv => (kv.1, itemIfScalarTensor kv.2)) ++ [])) ∧
    (∀ wandbLoaded nowand debug_mode : Bool,
      nowand = true ∨ debug_mode = true →
      meta_observe compat wandbLoaded nowand debug_mode observeFn args =
        some ((observeFn args2).1, none)) := by
  constructor
  · intro nw dm hnw hdm
    subst hnw; subst hdm
    constructor
    · simp [meta_observe, hf, autolog_wandb]
    · intro hmem
      refine List.mem_append.mpr (Or.inl ?_)
      refine List.mem_map.mpr ⟨("loss", PyVal.num (5 / 2)), ?_, rfl⟩
      exact List.mem_filter.mpr ⟨hmem, by decide⟩
  · intro w nw dm h
    rcases h with h | h
    · subst h
      simp [meta_observe, hf]
    · subst h
      by_cases hw : (w && !nw) = true
      · simp [meta_observe, hf, hw, autolog_wandb]
      · simp [meta_observe, hf, hw]

theorem meta_observe_autolog_loss_witness :
    metaObserveFilter ["cssl"] ([] : List MArg) = some [] ∧
    meta_observe ["cssl"] true false false
        (fun _ => ((1 : Rat), [("loss", PyVal.num (5 / 2))])) [] =
      some (1, some [("loss", PyVal.num (5 / 2))]) ∧
    ("loss", PyVal.num (5 / 2)) ∈
      ([("loss", PyVal.num (5 / 2))] : List (String × PyVal)) ∧
    meta_observe ["cssl"] true true false
        (fun _ => ((1 : Rat), [("loss", PyVal.num (5 / 2))])) [] =
      some (1, none) := by
  have h := meta_observe_autolog_loss ["cssl"] [] []
    (fun _ => ((1 : Rat), [("loss", PyVal.num (5 / 2))])) (by decide)
  have h1 := (h.1 false false rfl rfl).1
  refine ⟨by decide, ?_, List.mem_singleton.mpr rfl,
    h.2 true true false (Or.inl rfl)⟩
  rw [h1]
  rfl

/-- A successful association-list lookup returns a binding present in the
list. -/
theorem lookup_pairs_mem {β : Type} (ps : List (String × β)) (key : String)
    (v : β) (h : ps.lookup key = some v) : (key, v) ∈ ps := by
  induction ps with
  | nil => simp [List.lookup] at h
  | cons p ps ih =>
      obtain ⟨k, b⟩ := p
      by_cases hk : key = k
      · subst hk
        simp [List.lookup] at h
        simp [h]
      · have hbeq : (key == k) = false := beq_false_of_ne hk
        simp only [List.lookup, hbeq] at h
        exact List.mem_cons_of_mem _ (ih h)

/-- An association-list lookup for a key bound by no entry returns `none`. -/
theorem lookup_pairs_none {β : Type} (ps : List (String × β)) (key : String)
    (h : ∀ p ∈ ps, p.1 ≠ key) : ps.lookup key = none := by
  induction ps with
  | nil => simp [List.lookup]
  | cons p ps ih =>
      obtain ⟨k, b⟩ := p
      have hk : k ≠ key := h (k, b) (List.mem_cons_self _ _)
      have hbeq : (key == k) = false := beq_false_of_ne (Ne.symm hk)
      simp only [List.lookup, hbeq]
      exact ih (fun q hq => h q (List.mem_cons_of_mem _ hq))

/-- An association-list lookup for a key bound by some entry succeeds. -/
theorem lookup_pairs_isSome {β : Type} (ps : List (String × β)) (key : String)
    (h : ∃ p ∈ ps, p.1 = key) : (ps.lookup key).isSome := by
  induction ps with
  | nil => simp at h
  | cons p ps ih =>
      obtain ⟨k, b⟩ := p
      by_cases hk : key = k
      · subst hk
        simp [List.lookup]
      · have hbeq : (key == k) = false := beq_false_of_ne hk
        simp only [List.lookup, hbeq]
        apply ih
        rcases h with ⟨q, hq, hq1⟩
        rcases List.mem_cons.mp hq with hq | hq
        · exact absurd (by rw [hq] at hq1; exact hq1.symm) hk
        · exact ⟨q, hq, hq1⟩

/-- C5: `get_optimizer` matches the requested optimizer name
case-insensitively against the names available in `torch.optim`: with no
case-insensitive match it fails with `ValueError('Unknown optimizer: ...')`;
with a match (possibly under different case, e.g. requesting `"SGD"` when
only `"sgd"` is available) it succeeds, returning an optimizer whose class
is one of the available names matching case-insensitively, bound to the
configured learning rate, weight decay and momentum. -/
theorem get_optimizer_case_insensitive (dirOptim : List String)
    (a : CfgArgs) :
    ((∀ n ∈ dirOptim, pyLower n ≠ pyLower a.optimizer) →
      get_optimizer dirOptim a =
        .error (.valueError ("Unknown optimizer: " ++ a.optimizer))) ∧
    ((∃ n ∈ dirOptim, pyLower n = pyLower a.optimizer) →
      ∃ opt, get_optimizer dirOptim a = .ok opt ∧
        opt.optimClass ∈ dirOptim ∧
        pyLower opt.optimClass = pyLower a.optimizer ∧
        opt.lr = a.lr ∧ opt.weight_decay = a.optim_wd ∧
        opt.momentum = a.optim_mom) := by
  constructor
  · intro h
    have hnone : lookupOptim dirOptim (pyLower a.optimizer) = none := by
      apply lookup_pairs_none
      intro p hp
      rcases List.mem_reverse.mp hp with hp'
      rcases List.mem_map.mp hp' with ⟨n, hn, rfl⟩
      exact h n hn
    simp [get_optimizer, hnone]
  · intro h
    have hsome : (lookupOptim dirOptim (pyLower a.optimizer)).isSome := by
      apply lookup_pairs_isSome
      rcases h with ⟨n, hn, hlow⟩
      exact ⟨(pyLower n, n),
        List.mem_reverse.mpr (List.mem_map.mpr ⟨n, hn, rfl⟩), hlow⟩
    rcases Option.isSome_iff_exists.mp hsome with ⟨v, hv⟩
    have hmem := lookup_pairs_mem _ _ _ hv
    rcases List.mem_reverse.mp hmem with hmem'
    rcases List.mem_map.mp hmem' with ⟨n, hn, hpair⟩
    have hn1 : pyLower n = pyLower a.optimizer := congrArg Prod.fst hpair
    have hn2 : n = v := congrArg Prod.snd hpair
    subst hn2
    refine ⟨⟨n, a.lr, a.optim_wd, a.optim_mom⟩, ?_, hn, hn1, rfl, rfl, rfl⟩
    simp [get_optimizer, lookupOptim] at hv ⊢
    rw [hv]

theorem get_optimizer_case_insensitive_witness :
    (∃ n ∈ (["sgd"] : List String), pyLower n = pyLower "SGD") ∧
    (∃ opt, get_optimizer ["sgd"] ⟨"SGD", 1, 0, 0, 1, false, false, 10⟩ =
        .ok opt ∧
      opt.optimClass ∈ (["sgd"] : List String) ∧
      pyLower opt.optimClass = pyLower "SGD" ∧
      opt.lr = (1 : Rat) ∧ opt.weight_decay = (0 : Rat) ∧
      opt.momentum = (0 : Rat)) :=
  ⟨⟨"sgd", by decide, by decide⟩,
    (get_optimizer_case_insensitive ["sgd"]
      ⟨"SGD", 1, 0, 0, 1, false, false, 10⟩).2
      ⟨"sgd", by decide, by decide⟩⟩

/-- C6: `load_buffer` with a buffer whose stored example count differs from
the configured `buffer_size` fails with the `AssertionError` carrying the
mismatch message and yields no updated controller (so the buffer field is
not set); with an equal count it succeeds and the attached buffer is
retrievable from the resulting controller. -/
theorem load_buffer_size_check (st : MState) (b : Buffer) :
    (b.examples.length ≠ st.args.buffer_size →
      load_buffer st b = .error (.assertionError
        ("Buffer size mismatch. Expected " ++ toString st.args.buffer_size ++
          " got " ++ toString b.examples.length)) ∧
      ∀ st', load_buffer st b ≠ .ok st') ∧
    (b.examples.length = st.args.buffer_size →
      ∃ st', load_buffer st b = .ok st' ∧ st'.buffer = some b) := by
  constructor
  · intro h
    constructor
    · simp [load_buffer, h]
    · intro st'
      simp [load_buffer, h]
  · intro h
    exact ⟨{ st with buffer := some b }, by simp [load_buffer, h], rfl⟩

theorem load_buffer_size_check_witness :
    ((⟨[1, 2, 3]⟩ : Buffer).examples.length ≠
      (⟨"sgd", 1, 0, 0, 1, false, false, 2⟩ : CfgArgs).buffer_size) ∧
    load_buffer
        ⟨"m", ["class-il"], ⟨"sgd", 1, 0, 0, 1, false, false, 2⟩,
          none, none, none, none, [], 0⟩ ⟨[1, 2, 3]⟩ =
      .error (.assertionError
        "Buffer size mismatch. Expected 2 got 3") ∧
    (∃ st', load_buffer
        ⟨"m", ["class-il"], ⟨"sgd", 1, 0, 0, 1, false, false, 2⟩,
          none, none, none, none, [], 0⟩ ⟨[1, 2]⟩ =
      .ok st' ∧ st'.buffer = some ⟨[1, 2]⟩) := by
  refine ⟨by decide, ?_, ?_⟩
  · have h := ((load_buffer_size_check
      ⟨"m", ["class-il"], ⟨"sgd", 1, 0, 0, 1, false, false, 2⟩,
        none, none, none, none, [], 0⟩ ⟨[1, 2, 3]⟩).1 (by decide)).1
    rw [h]
    rfl
  · exact (load_buffer_size_check
      ⟨"m", ["class-il"], ⟨"sgd", 1, 0, 0, 1, false, false, 2⟩,
        none, none, none, none, [], 0⟩ ⟨[1, 2]⟩).2 (by decide)

/-- C9: the base-class `observe` fails with `NotImplementedError` on every
input and never returns a value. -/
theorem observe_not_implemented (inputs labels not_aug_inputs : MArg)
    (epoch : Option Int) :
    observe inputs labels not_aug_inputs epoch =
      .error (.notImplementedError "") ∧
    ∀ v, observe inputs labels not_aug_inputs epoch ≠ .ok v := by
  exact ⟨rfl, fun v h => by simp [observe] at h⟩

/-- C4: when construction reaches the strategy-descriptor validation (the
optimizer stage does not fail first: either no backbone is supplied or the
configured optimizer resolves), an empty strategy name — and likewise a
non-empty name with an empty compatibility-tag set — makes `initModel` fail
with the error raised at `if not self.NAME or not self.COMPATIBILITY`,
so construction does not complete. -/
theorem init_requires_name_and_compat (inp : InitInput)
    (hopt : inp.hasNet = false ∨
      ∃ o, get_optimizer inp.dirOptim inp.args = .ok o)
    (h : inp.NAME = "" ∨ (inp.NAME ≠ "" ∧ inp.COMPATIBILITY = [])) :
    initModel inp = .error (.notImplementedError
      "Please specify the name and the compatibility of the model.") ∧
    ∀ st, initModel inp ≠ .ok st := by
  have hcond : inp.NAME = "" ∨ inp.COMPATIBILITY = [] := by
    rcases h with h | ⟨-, h⟩
    · exact Or.inl h
    · exact Or.inr h
  have hmain : initModel inp = .error (.notImplementedError
      "Please specify the name and the compatibility of the model.") := by
    rcases hopt with hnet | ⟨o, ho⟩
    · cases hk : inp.korniaDerivation with
      | ok p =>
          obtain ⟨w, n⟩ := p
          simp only [initModel, hk, hnet, hcond]
          rfl
      | error e =>
          simp only [initModel, hk, hnet, hcond]
          rfl
    · by_cases hnet : inp.hasNet
      all_goals cases hk : inp.korniaDerivation with
      | ok p =>
          obtain ⟨w, n⟩ := p
          simp only [initModel, hk, hnet, ho, hcond]
          rfl
      | error e =>
          simp only [initModel, hk, hnet, ho, hcond]
          rfl
  exact ⟨hmain, fun st hst => by rw [hmain] at hst; exact Except.noConfusion hst⟩

theorem init_requires_name_and_compat_witness :
    (∃ o, get_optimizer ["sgd"] ⟨"sgd", 1, 0, 0, 1, false, false, 10⟩ =
      .ok o) ∧
    initModel ⟨"", ["class-il"], true, ["sgd"], .ok (⟨0⟩, ⟨1⟩),
        ⟨"sgd", 1, 0, 0, 1, false, false, 10⟩, 10, 5, Cpt.int 2⟩ =
      .error (.notImplementedError
        "Please specify the name and the compatibility of the model.") ∧
    initModel ⟨"m", [], true, ["sgd"], .ok (⟨0⟩, ⟨1⟩),
        ⟨"sgd", 1, 0, 0, 1, false, false, 10⟩, 10, 5, Cpt.int 2⟩ =
      .error (.notImplementedError
        "Please specify the name and the compatibility of the model.") := by
  refine ⟨⟨⟨"sgd", 1, 0, 0⟩, by rfl⟩, ?_, ?_⟩
  · exact (init_requires_name_and_compat
      ⟨"", ["class-il"], true, ["sgd"], .ok (⟨0⟩, ⟨1⟩),
        ⟨"sgd", 1, 0, 0, 1, false, false, 10⟩, 10, 5, Cpt.int 2⟩
      (Or.inr ⟨⟨"sgd", 1, 0, 0⟩, by rfl⟩) (Or.inl rfl)).1
  · exact (init_requires_name_and_compat
      ⟨"m", [], true, ["sgd"], .ok (⟨0⟩, ⟨1⟩),
        ⟨"sgd", 1, 0, 0, 1, false, false, 10⟩, 10, 5, Cpt.int 2⟩
      (Or.inr ⟨⟨"sgd", 1, 0, 0⟩, by rfl⟩)
      (Or.inr ⟨by decide, rfl⟩)).1

/-- C8: when the kornia transform derivation fails (whatever the exception),
and construction does not fail for the independent reasons (the strategy
descriptor is non-empty and the optimizer stage succeeds or is skipped),
`initModel` still completes: both transform fields are `None` and the
warning is among the surfaced warnings — no exception propagates from the
derivation. -/
theorem init_transform_failure_recoverable (inp : InitInput)
    (hk : inp.korniaDerivation = .error ())
    (hname : inp.NAME ≠ "") (hcomp : inp.COMPATIBILITY ≠ [])
    (hopt : inp.hasNet = false ∨
      ∃ o, get_optimizer inp.dirOptim inp.args = .ok o) :
    ∃ st, initModel inp = .ok st ∧
      st.weak_transform = none ∧
      st.normalization_transform = none ∧
      "Warning: could not initialize kornia transforms." ∈ st.warnings := by
  have hcond : ¬(inp.NAME = "" ∨ inp.COMPATIBILITY = []) := by
    simp [hname, hcomp]
  rcases hopt with hnet | ⟨o, ho⟩
  · have hform : initModel inp = Except.ok
        { NAME := inp.NAME, COMPATIBILITY := inp.COMPATIBILITY,
          args := inp.args, weak_transform := none,
          normalization_transform := none, opt := none, buffer := none,
          warnings := "Warning: could not initialize kornia transforms." ::
            "Warning: no default model for this dataset. You will have to specify the optimizer yourself." ::
            (if ¬inp.args.label_perc = 1 ∧ "cssl" ∉ inp.COMPATIBILITY then
              ["WARNING: label_perc is not explicitly supported by this model -> training may break"]
            else []),
          current_task := 0 } := by
      simp only [initModel, hk, hnet, hcond]
      rfl
    exact ⟨_, hform, rfl, rfl, List.mem_cons_self _ _⟩
  · by_cases hnet : inp.hasNet
    · have hform : initModel inp = Except.ok
          { NAME := inp.NAME, COMPATIBILITY := inp.COMPATIBILITY,
            args := inp.args, weak_transform := none,
            normalization_transform := none, opt := some o, buffer := none,
            warnings := "Warning: could not initialize kornia transforms." ::
              (if ¬inp.args.label_perc = 1 ∧ "cssl" ∉ inp.COMPATIBILITY then
                ["WARNING: label_perc is not explicitly supported by this model -> training may break"]
              else []),
            current_task := 0 } := by
        simp only [initModel, hk, hnet, ho, hcond]
        rfl
      exact ⟨_, hform, rfl, rfl, List.mem_cons_self _ _⟩
    · have hnet' : inp.hasNet = false := by
        simpa using hnet
      have hform : initModel inp = Except.ok
          { NAME := inp.NAME, COMPATIBILITY := inp.COMPATIBILITY,
            args := inp.args, weak_transform := none,
            normalization_transform := none, opt := none, buffer := none,
            warnings := "Warning: could not initialize kornia transforms." ::
              "Warning: no default model for this dataset. You will have to specify the optimizer yourself." ::
              (if ¬inp.args.label_perc = 1 ∧ "cssl" ∉ inp.COMPATIBILITY then
                ["WARNING: label_perc is not explicitly supported by this model -> training may break"]
              else []),
            current_task := 0 } := by
        simp only [initModel, hk, hnet', hcond]
        rfl
      exact ⟨_, hform, rfl, rfl, List.mem_cons_self _ _⟩

theorem init_transform_failure_recoverable_witness :
    (∃ st, initModel ⟨"m", ["class-il"], false, [],
        .error (), ⟨"sgd", 1, 0, 0, 1, false, false, 10⟩, 10, 5,
        Cpt.int 2⟩ = .ok st ∧
      st.weak_transform = none ∧
      st.normalization_transform = none ∧
      "Warning: could not initialize kornia transforms." ∈ st.warnings) :=
  init_transform_failure_recoverable
    ⟨"m", ["class-il"], false, [], .error (),
      ⟨"sgd", 1, 0, 0, 1, false, false, 10⟩, 10, 5, Cpt.int 2⟩
    rfl (by decide) (by decide) (Or.inl rfl)

end Mammoth
